import Mathlib

/-!
Verification of the receipt OCR region-extraction pipeline
(`backend/ocr/regions.py`): geometry normalization, price/keyword pattern
matching, header/footer boundary detection, item classification, multi-line
merging, the filtering fallback, the extraction cascade, and the TTL cache.

All definitions are shallow embeddings of the Python source.  Pixel and
normalized coordinates are modelled as exact rationals; the regular
expressions of the source are modelled as hand-rolled matchers with
backtracking (existential) search semantics over character lists.
-/

set_option maxRecDepth 4000000
set_option maxHeartbeats 4000000

namespace Splitwiser

/-! ## Character classes (the regex classes used by the source) -/

/-- Class `\d` of the source regexes (ASCII digits). -/
def isDigitChar (c : Char) : Bool := c.isDigit

/-- Class `\s` of the source regexes (whitespace). -/
def isSpaceChar (c : Char) : Bool :=
  c = ' ' || c = '\t' || c = '\n' || c = '\r' || c = '\x0b' || c = '\x0c'

/-- Class `\w` of the source regexes (word characters), used by `\b`. -/
def isWordChar (c : Char) : Bool := c.isAlphanum || c = '_'

/-- Word boundary `\b` holds at the start of a match of a word character when
the previous character (if any) is not a word character. -/
def atBoundaryStart (prev : Option Char) : Bool :=
  match prev with
  | none => true
  | some c => !(isWordChar c)

/-- Word boundary `\b` holds after a word character when the next character
(if any) is not a word character. -/
def endBoundary : List Char → Bool
  | [] => true
  | c :: _ => !(isWordChar c)

/-- The next character (if any) is not a digit: the lookahead `(?!\d)`. -/
def noDigitHead : List Char → Bool
  | [] => true
  | c :: _ => !(isDigitChar c)

/-- The previous character (if any) is not a digit: the lookbehind `(?<!\d)`. -/
def prevNotDigit (prev : Option Char) : Bool :=
  match prev with
  | none => true
  | some c => !(isDigitChar c)

/-! ## Matching primitives -/

/-- Match a literal word case-insensitively (the pattern is given in
lowercase); return the rest of the input on success. -/
def matchLitCI : List Char → List Char → Option (List Char)
  | [], input => some input
  | _ :: _, [] => none
  | p :: ps, c :: cs => if c.toLower = p then matchLitCI ps cs else none

/-- Match a literal word case-sensitively; return the rest on success. -/
def matchLitCS : List Char → List Char → Option (List Char)
  | [], input => some input
  | _ :: _, [] => none
  | p :: ps, c :: cs => if c = p then matchLitCS ps cs else none

/-- Consume a maximal run of digits, returning its length and the rest.
Used for `\d+` (whose continuations in every source pattern start with a
non-digit, so maximal consumption is equivalent to backtracking). -/
def dropDigits : List Char → Nat × List Char
  | [] => (0, [])
  | c :: cs =>
    if isDigitChar c then
      let r := dropDigits cs
      (r.1 + 1, r.2)
    else (0, c :: cs)

/-- Consume a maximal run of ASCII letters (for `[A-Za-z]+` under `re.I`). -/
def dropAlpha : List Char → Nat × List Char
  | [] => (0, [])
  | c :: cs =>
    if c.isAlpha then
      let r := dropAlpha cs
      (r.1 + 1, r.2)
    else (0, c :: cs)

/-- Exactly two digits (`\d{2}`); return the rest on success. -/
def twoDigits : List Char → Option (List Char)
  | a :: b :: r => if isDigitChar a && isDigitChar b then some r else none
  | _ => none

/-- Exactly three digits (`\d{3}`); return the rest on success. -/
def threeDigits : List Char → Option (List Char)
  | a :: b :: c :: r =>
    if isDigitChar a && isDigitChar b && isDigitChar c then some r else none
  | _ => none

/-- Exactly four digits (`\d{4}`); return the rest on success. -/
def fourDigits : List Char → Option (List Char)
  | a :: b :: c :: d :: r =>
    if isDigitChar a && isDigitChar b && isDigitChar c && isDigitChar d then some r
    else none
  | _ => none

/-- All rests reachable by consuming at least one whitespace character:
the backtracking choices of `\s+`. -/
def spaces1Rests : List Char → List (List Char)
  | [] => []
  | c :: rest => if isSpaceChar c then rest :: spaces1Rests rest else []

/-- All rests reachable by consuming zero or more whitespace characters:
the backtracking choices of `\s*`. -/
def spaces0Rests (l : List Char) : List (List Char) :=
  l :: spaces1Rests l

/-- All rests reachable by consuming zero or more non-newline characters:
the backtracking choices of `.*`. -/
def dotStarRests : List Char → List (List Char)
  | [] => [[]]
  | c :: rest => (c :: rest) :: (if c = '\n' then [] else dotStarRests rest)

/-- Search a position predicate (which may look at the previous character,
for lookbehind/word-boundary) over all suffixes of the input: `re.search`. -/
def searchFrom (p : Option Char → List Char → Bool) :
    Option Char → List Char → Bool
  | prev, [] => p prev []
  | prev, c :: cs => p prev (c :: cs) || searchFrom p (some c) cs

/-- Run a positional matcher over a string as `re.search` does. -/
def reSearch (p : Option Char → List Char → Bool) (s : String) : Bool :=
  searchFrom p none s.data

/-! ## Price patterns (`TextRegion.has_price_pattern`) -/

/-- Tail of the first price pattern after the `$`: `\s?\d+\.\d{2}`. -/
def digitsDotDD (l : List Char) : Bool :=
  let r := dropDigits l
  decide (1 ≤ r.1) &&
    (match r.2 with
     | '.' :: r2 => (twoDigits r2).isSome
     | _ => false)

/-- First price pattern `\$\s?\d+\.\d{2}` at the current position. -/
def priceP1At : List Char → Bool
  | '$' :: rest =>
    digitsDotDD rest ||
      (match rest with
       | c :: r => isSpaceChar c && digitsDotDD r
       | [] => false)
  | _ => false

/-- Literal `USD` or `usd` at the current position (`(?:USD|usd)`). -/
def matchUSD : List Char → Bool
  | 'U' :: 'S' :: 'D' :: _ => true
  | 'u' :: 's' :: 'd' :: _ => true
  | _ => false

/-- Optional single whitespace then `USD`/`usd` (`\s?(?:USD|usd)`). -/
def usdOpt (l : List Char) : Bool :=
  matchUSD l ||
    (match l with
     | c :: r => isSpaceChar c && matchUSD r
     | [] => false)

/-- Second price pattern `\d+\.\d{2}\s?(?:USD|usd)` at the current position. -/
def priceP2At (l : List Char) : Bool :=
  let r := dropDigits l
  decide (1 ≤ r.1) &&
    (match r.2 with
     | '.' :: r2 =>
       match twoDigits r2 with
       | some r3 => usdOpt r3
       | none => false
     | _ => false)

/-- Third price pattern `(?<!\d)\d+\.\d{2}(?!\d)` at the current position. -/
def priceP3At (prev : Option Char) (l : List Char) : Bool :=
  prevNotDigit prev &&
    (let r := dropDigits l
     decide (1 ≤ r.1) &&
       (match r.2 with
        | '.' :: r2 =>
          match twoDigits r2 with
          | some r3 => noDigitHead r3
          | none => false
        | _ => false))

/-- The price-pattern check of `TextRegion.has_price_pattern`: the text
matches any of the three price regexes. -/
def has_price_pattern (t : String) : Bool :=
  reSearch (fun _ l => priceP1At l) t ||
  reSearch (fun _ l => priceP2At l) t ||
  reSearch priceP3At t

/-! ## Keyword patterns -/

/-- Single word surrounded by `\b` boundaries (e.g. `\btotal\b`),
case-insensitively, at the current position. -/
def kwBounded (pat : List Char) (prev : Option Char) (l : List Char) : Bool :=
  atBoundaryStart prev &&
    (match matchLitCI pat l with
     | some r => endBoundary r
     | none => false)

/-- Two words joined by `\s+`, surrounded by `\b` boundaries
(e.g. `\bgrand\s+total\b`), case-insensitively, at the current position. -/
def kwTwoWords (w1 w2 : List Char) (prev : Option Char) (l : List Char) : Bool :=
  atBoundaryStart prev &&
    (match matchLitCI w1 l with
     | some r =>
       (spaces1Rests r).any fun r2 =>
         match matchLitCI w2 r2 with
         | some r3 => endBoundary r3
         | none => false
     | none => false)

/-- The pattern `\bhave\s+a\s+.*\s+day\b` at the current position. -/
def kwHaveADayAt (prev : Option Char) (l : List Char) : Bool :=
  atBoundaryStart prev &&
    (match matchLitCI ['h', 'a', 'v', 'e'] l with
     | some r =>
       (spaces1Rests r).any fun r2 =>
         match matchLitCI ['a'] r2 with
         | some r3 =>
           (spaces1Rests r3).any fun r4 =>
             (dotStarRests r4).any fun r5 =>
               (spaces1Rests r5).any fun r6 =>
                 match matchLitCI ['d', 'a', 'y'] r6 with
                 | some r7 => endBoundary r7
                 | none => false
         | none => false
     | none => false)

/-- The pattern `\bcard\s*#` at the current position. -/
def kwCardHashAt (prev : Option Char) (l : List Char) : Bool :=
  atBoundaryStart prev &&
    (match matchLitCI ['c', 'a', 'r', 'd'] l with
     | some r =>
       (spaces0Rests r).any fun r2 =>
         match r2 with
         | '#' :: _ => true
         | _ => false
     | none => false)

/-- Two words joined by `\s+` without `\b` boundaries (e.g. `thank\s+you`
of the filter's footer patterns), case-insensitively. -/
def phrase2At (w1 w2 : List Char) (l : List Char) : Bool :=
  match matchLitCI w1 l with
  | some r => (spaces1Rests r).any fun r2 => (matchLitCI w2 r2).isSome
  | none => false

/-- Three words joined by `\s+` without boundaries
(`please\s+come\s+again`), case-insensitively. -/
def phrase3At (w1 w2 w3 : List Char) (l : List Char) : Bool :=
  match matchLitCI w1 l with
  | some r =>
    (spaces1Rests r).any fun r2 =>
      match matchLitCI w2 r2 with
      | some r3 => (spaces1Rests r3).any fun r4 => (matchLitCI w3 r4).isSome
      | none => false
  | none => false

/-- Search for a `\b`-bounded single keyword anywhere in the string. -/
def searchKw (pat : List Char) (s : String) : Bool :=
  reSearch (kwBounded pat) s

/-- Search for a `\b`-bounded two-word keyword anywhere in the string. -/
def searchKw2 (w1 w2 : List Char) (s : String) : Bool :=
  reSearch (kwTwoWords w1 w2) s

/-! ## Footer keywords of `_detect_footer_boundary` (smart path) -/

/-- One search per pattern of the `footer_keywords` list of
`_detect_footer_boundary`, in source order, joined by the loop's `or`. -/
def smartFooterKeywordMatch (s : String) : Bool :=
  searchKw ['t', 'o', 't', 'a', 'l'] s ||
  searchKw ['s', 'u', 'b', 't', 'o', 't', 'a', 'l'] s ||
  searchKw2 ['g', 'r', 'a', 'n', 'd'] ['t', 'o', 't', 'a', 'l'] s ||
  searchKw2 ['t', 'h', 'a', 'n', 'k'] ['y', 'o', 'u'] s ||
  reSearch kwHaveADayAt s ||
  searchKw2 ['v', 'i', 's', 'i', 't'] ['u', 's'] s ||
  reSearch kwCardHashAt s ||
  searchKw ['t', 'e', 'n', 'd', 'e', 'r'] s ||
  searchKw ['c', 'h', 'a', 'n', 'g', 'e'] s ||
  searchKw ['b', 'a', 'l', 'a', 'n', 'c', 'e'] s

/-- The shorter `footer_keywords` list inside `filter_item_regions`
(no `visit us`, no `change`), in source order. -/
def filterFooterKeywordMatch (s : String) : Bool :=
  searchKw ['t', 'o', 't', 'a', 'l'] s ||
  searchKw ['s', 'u', 'b', 't', 'o', 't', 'a', 'l'] s ||
  searchKw2 ['g', 'r', 'a', 'n', 'd'] ['t', 'o', 't', 'a', 'l'] s ||
  searchKw2 ['t', 'h', 'a', 'n', 'k'] ['y', 'o', 'u'] s ||
  reSearch kwHaveADayAt s ||
  reSearch kwCardHashAt s ||
  searchKw ['t', 'e', 'n', 'd', 'e', 'r'] s ||
  searchKw ['b', 'a', 'l', 'a', 'n', 'c', 'e'] s

/-! ## Tax/tip patterns (`_is_tax_tip_line`) -/

/-- The `tax_tip_patterns` checks of `_is_tax_tip_line`, in source order. -/
def is_tax_tip_line (s : String) : Bool :=
  searchKw ['t', 'a', 'x'] s ||
  searchKw ['t', 'i', 'p'] s ||
  searchKw ['g', 'r', 'a', 't', 'u', 'i', 't', 'y'] s ||
  searchKw2 ['s', 'e', 'r', 'v', 'i', 'c', 'e'] ['c', 'h', 'a', 'r', 'g', 'e'] s ||
  searchKw2 ['d', 'e', 'l', 'i', 'v', 'e', 'r', 'y'] ['f', 'e', 'e'] s

/-! ## Quantity patterns and `_is_likely_item_line` -/

/-- The trailing `x\b` of the quantity pattern `\d+\s?x\b`. -/
def xAfter : List Char → Bool
  | c :: rest => (c.toLower = 'x') && endBoundary rest
  | [] => false

/-- Quantity pattern `\d+\s?x\b` (case-insensitive) at the current position. -/
def qtyXAt (l : List Char) : Bool :=
  let r := dropDigits l
  decide (1 ≤ r.1) &&
    (xAfter r.2 ||
      (match r.2 with
       | c :: r2 => isSpaceChar c && xAfter r2
       | [] => false))

/-- Quantity pattern `^\d+\s+[A-Za-z]`, anchored at the start of the text. -/
def qtyLeadingCount (l : List Char) : Bool :=
  let r := dropDigits l
  decide (1 ≤ r.1) &&
    (spaces1Rests r.2).any fun r2 =>
      match r2 with
      | c :: _ => c.isAlpha
      | [] => false

/-- The `\$?\d+\.\d{2}` tail of the `@` quantity pattern (a leading `$`
can never start the `\d+` branch, so consuming it when present is
equivalent to the regex's optional match). -/
def dollarOptPrice : List Char → Bool
  | '$' :: r => digitsDotDD r
  | l => digitsDotDD l

/-- Quantity pattern `@\s?\$?\d+\.\d{2}` at the current position. -/
def qtyAtAt : List Char → Bool
  | '@' :: rest =>
    dollarOptPrice rest ||
      (match rest with
       | c :: r => isSpaceChar c && dollarOptPrice r
       | [] => false)
  | _ => false

/-- Strip leading and trailing whitespace from a character list
(Python `str.strip`). -/
def stripChars (l : List Char) : List Char :=
  ((l.dropWhile isSpaceChar).reverse.dropWhile isSpaceChar).reverse

/-- Python `text.strip()` as a String operation. -/
def stripStr (s : String) : String := String.mk (stripChars s.data)

/-- The `_is_likely_item_line` heuristic: quantity cue, then length bounds,
then the 40%-letters test. -/
def is_likely_item_line (t : String) : Bool :=
  if reSearch (fun _ l => qtyXAt l) t || qtyLeadingCount t.data ||
      reSearch (fun _ l => qtyAtAt l) t then
    true
  else if (stripChars t.data).length < 3 || 50 < (stripChars t.data).length then
    false
  else
    let letterCount := (t.data.filter Char.isAlpha).length
    let totalCount := (t.data.filter (fun c => c ≠ ' ')).length
    decide (0 < totalCount) &&
      decide ((2 : ℚ) / 5 < (letterCount : ℚ) / (totalCount : ℚ))

/-! ## Header/footer text patterns of `filter_item_regions` -/

/-- A separator of the phone-number pattern: the class `[-.:]`. -/
def sepChar (c : Char) : Bool := c = '-' || c = '.' || c = ':'

/-- Phone-number pattern `\d{3}[-.:]\d{3}[-.:]\d{4}` at the current
position. -/
def phoneAt (l : List Char) : Bool :=
  match threeDigits l with
  | some (c1 :: r1) =>
    sepChar c1 &&
      (match threeDigits r1 with
       | some (c2 :: r2) => sepChar c2 && (fourDigits r2).isSome
       | _ => false)
  | _ => false

/-- URL pattern `www\.|\.com|\.net` (case-insensitive) at the current
position. -/
def urlAt (l : List Char) : Bool :=
  (matchLitCI ['w', 'w', 'w', '.'] l).isSome ||
  (matchLitCI ['.', 'c', 'o', 'm'] l).isSome ||
  (matchLitCI ['.', 'n', 'e', 't'] l).isSome

/-- Street-address pattern `^\d+\s+[A-Z][a-z]+\s+St` under `re.I`
(both letter classes match any ASCII letter), anchored at the start. -/
def addressPat (l : List Char) : Bool :=
  let r := dropDigits l
  decide (1 ≤ r.1) &&
    (spaces1Rests r.2).any fun r2 =>
      match r2 with
      | c :: r3 =>
        c.isAlpha &&
          (let a := dropAlpha r3
           decide (1 ≤ a.1) &&
             (spaces1Rests a.2).any fun r4 =>
               (matchLitCI ['s', 't'] r4).isSome)
      | [] => false

/-- The `header_patterns` rejection of `filter_item_regions`: phone
numbers, URLs, street addresses; each searched with `re.I`. -/
def filterHeaderPatternMatch (s : String) : Bool :=
  reSearch (fun _ l => phoneAt l) s ||
  reSearch (fun _ l => urlAt l) s ||
  addressPat s.data

/-- The `footer_patterns` rejection of `filter_item_regions`:
`thank\s+you`, `please\s+come\s+again`, `visit\s+us`, searched with `re.I`. -/
def filterFooterPatternMatch (s : String) : Bool :=
  reSearch (fun _ l => phrase2At ['t', 'h', 'a', 'n', 'k'] ['y', 'o', 'u'] l) s ||
  reSearch (fun _ l =>
    phrase3At ['p', 'l', 'e', 'a', 's', 'e'] ['c', 'o', 'm', 'e']
      ['a', 'g', 'a', 'i', 'n'] l) s ||
  reSearch (fun _ l => phrase2At ['v', 'i', 's', 'i', 't'] ['u', 's'] l) s

/-- A single space, the join/merge separator of the source. -/
def singleSpace : String := " "

/-! ## Geometry model -/

/-- Normalized bounding box (`BoundingBox` dataclass): coordinates as
fractions of image width/height. -/
structure BoundingBox where
  x_min : ℚ
  y_min : ℚ
  x_max : ℚ
  y_max : ℚ
  deriving DecidableEq, Repr

/-- Derived property `width`. -/
def BoundingBox.width (b : BoundingBox) : ℚ := b.x_max - b.x_min

/-- Derived property `height`. -/
def BoundingBox.height (b : BoundingBox) : ℚ := b.y_max - b.y_min

/-- Derived property `center_y`. -/
def BoundingBox.center_y (b : BoundingBox) : ℚ := (b.y_min + b.y_max) / 2

/-- Derived property `area`. -/
def BoundingBox.area (b : BoundingBox) : ℚ := b.width * b.height

/-- A detected text region (`TextRegion` dataclass). -/
structure TextRegion where
  text : String
  bounding_box : BoundingBox
  confidence : ℚ := 1
  deriving DecidableEq, Repr

/-- Method `TextRegion.has_price_pattern` of the source. -/
def TextRegion.has_price_pattern (r : TextRegion) : Bool :=
  Splitwiser.has_price_pattern r.text

/-! ## Vendor response model -/

/-- A polygon vertex; a coordinate is `none` when the vendor object lacks
the attribute (`hasattr` checks in the source). -/
structure Vertex where
  x : Option ℚ
  y : Option ℚ
  deriving DecidableEq, Repr

/-- A bounding polygon of vertices. -/
structure BoundingPoly where
  vertices : List Vertex
  deriving DecidableEq, Repr

/-- A symbol of the structured response (carries its text). -/
structure Sym where
  text : String
  deriving DecidableEq, Repr

/-- A word of the structured response. -/
structure Word where
  symbols : List Sym
  deriving DecidableEq, Repr

/-- A paragraph of the structured response. -/
structure Paragraph where
  words : List Word
  bounding_box : BoundingPoly
  confidence : Option ℚ
  deriving DecidableEq, Repr

/-- A block of the structured response. -/
structure Block where
  paragraphs : List Paragraph
  deriving DecidableEq, Repr

/-- A page of the structured response; dimensions are `none` when absent. -/
structure Page where
  width : Option ℚ
  height : Option ℚ
  blocks : List Block
  deriving DecidableEq, Repr

/-- The `full_text_anno` structure. -/
structure FullTextAnno where
  pages : List Page
  deriving DecidableEq, Repr

/-- One element of the flat `text_annos` list. -/
structure FlatAnno where
  description : String
  bounding_poly : BoundingPoly
  deriving DecidableEq, Repr

/-- A vendor response: an optional structured tree and a (possibly empty)
flat token list; `none` and `[]` model absent/falsy attributes. -/
structure VisionResponse where
  full_text_anno : Option FullTextAnno
  text_annos : List FlatAnno
  deriving DecidableEq, Repr

/-- Errors of the pipeline, mirroring the spec's error taxonomy
(`ValueError`s of the source). -/
inductive RegionError where
  | nullResponse
  | missingStructure
  | invalidGeometry
  | noRegions
  deriving DecidableEq, Repr

/-- Decidable equality for `Except`, so that concrete pipeline results can
be checked by `decide`. -/
instance [DecidableEq ε] [DecidableEq α] : DecidableEq (Except ε α) := fun x y =>
  match x, y with
  | .error a, .error b =>
    if h : a = b then isTrue (by rw [h])
    else isFalse (fun he => by cases he; exact h rfl)
  | .ok a, .ok b =>
    if h : a = b then isTrue (by rw [h])
    else isFalse (fun he => by cases he; exact h rfl)
  | .error _, .ok _ => isFalse (fun he => by cases he)
  | .ok _, .error _ => isFalse (fun he => by cases he)

/-! ## Coordinate normalization (`normalize_bounding_box`) -/

/-- Clamp a value into the interval `[0, 1]` (`max(0.0, min(1.0, v))`). -/
def clamp01 (v : ℚ) : ℚ := max 0 (min 1 v)

/-- Function `normalize_bounding_box(vertices, image_size)`: min/max per axis,
divide by the image dimensions, clamp into `[0,1]`.  The three `raise
ValueError` sites become `invalidGeometry` errors. -/
def normalize_bounding_box (vertices : List Vertex) (image_size : ℚ × ℚ) :
    Except RegionError BoundingBox :=
  if vertices.isEmpty then .error .invalidGeometry
  else if image_size.1 ≤ 0 ∨ image_size.2 ≤ 0 then .error .invalidGeometry
  else
    match vertices.filterMap Vertex.x, vertices.filterMap Vertex.y with
    | [], _ => .error .invalidGeometry
    | _ :: _, [] => .error .invalidGeometry
    | x0 :: xr, y0 :: yr =>
      let x_min := (xr.foldl min x0) / image_size.1
      let x_max := (xr.foldl max x0) / image_size.1
      let y_min := (yr.foldl min y0) / image_size.2
      let y_max := (yr.foldl max y0) / image_size.2
      .ok ⟨clamp01 x_min, clamp01 y_min, clamp01 x_max, clamp01 y_max⟩

/-! ## Stable sorting by vertical center (Python `list.sort` is stable) -/

/-- Insert into a list sorted by a key, before the first element of equal
or larger key (preserving the stability of Python's sort, where the
element being inserted comes from earlier in the original list). -/
def insertSorted [LinearOrder β] (key : α → β) (x : α) : List α → List α
  | [] => [x]
  | y :: ys => if key x ≤ key y then x :: y :: ys else y :: insertSorted key x ys

/-- Stable insertion sort by a key. -/
def sortByKey [LinearOrder β] (key : α → β) : List α → List α
  | [] => []
  | x :: xs => insertSorted key x (sortByKey key xs)

/-- Python `regions.sort(key=lambda r: r.bounding_box.center_y)`. -/
def sortByCenterY (l : List TextRegion) : List TextRegion :=
  sortByKey (fun r => r.bounding_box.center_y) l

/-! ## Header/footer boundary detection -/

/-- The scan of `_detect_header_boundary`: first paragraph with a price
pattern sets the boundary to the previous paragraph's `y_max` (or its own
`y_min` when it is the first); default 0.15. -/
def headerScan : Option TextRegion → List TextRegion → ℚ
  | _, [] => 15 / 100
  | prev, r :: rest =>
    if r.has_price_pattern then
      match prev with
      | some p => p.bounding_box.y_max
      | none => r.bounding_box.y_min
    else headerScan (some r) rest

/-- Function `_detect_header_boundary`: the scan result capped at 0.25. -/
def detect_header_boundary (paragraphs : List TextRegion) : ℚ :=
  min (headerScan none paragraphs) (25 / 100)

/-- The bottom-up scan of `_detect_footer_boundary`: the first region
(from the end) matching a footer keyword returns `max(y_min, 0.75)`. -/
def footerScanSmart : List TextRegion → ℚ
  | [] => 85 / 100
  | r :: rest =>
    if smartFooterKeywordMatch r.text then max r.bounding_box.y_min (75 / 100)
    else footerScanSmart rest

/-- Function `_detect_footer_boundary`: bottom-up keyword scan, default 0.85. -/
def detect_footer_boundary (paragraphs : List TextRegion) : ℚ :=
  footerScanSmart paragraphs.reverse

/-! ## Classification and multi-line merge -/

/-- The classification loop of `detect_smart_regions`: partition the
sorted paragraphs into item candidates and tax/tip regions, applying the
skip rules in source order. -/
def classifyBody (header_end_y footer_start_y : ℚ) :
    List TextRegion → List TextRegion × List TextRegion
  | [] => ([], [])
  | r :: rest =>
    let acc := classifyBody header_end_y footer_start_y rest
    if r.bounding_box.center_y < header_end_y then acc
    else if footer_start_y < r.bounding_box.center_y then acc
    else if r.bounding_box.area < 3 / 1000 ∨ 1 / 2 < r.bounding_box.area then acc
    else if (stripChars r.text.data).length ≤ 1 then acc
    else if is_tax_tip_line r.text then (acc.1, r :: acc.2)
    else if r.has_price_pattern || is_likely_item_line r.text then
      (r :: acc.1, acc.2)
    else acc

/-- Function `_group_multiline_items`: single greedy left-to-right pass; a pair
with vertical gap `< 0.05` of which exactly one side has a price pattern
is merged (concatenated text, combined box, averaged confidence) and the
consumed neighbor skipped.  The unused `image_size` parameter of the
source is retained. -/
def group_multiline_items : List TextRegion → ℚ × ℚ → List TextRegion
  | [], _ => []
  | [r], _ => [r]
  | r1 :: r2 :: rest, image_size =>
    if r2.bounding_box.y_min - r1.bounding_box.y_max < 5 / 100 ∧
        r1.has_price_pattern ≠ r2.has_price_pattern then
      { text := r1.text ++ singleSpace ++ r2.text,
        bounding_box :=
          { x_min := min r1.bounding_box.x_min r2.bounding_box.x_min,
            y_min := r1.bounding_box.y_min,
            x_max := max r1.bounding_box.x_max r2.bounding_box.x_max,
            y_max := r2.bounding_box.y_max },
        confidence := (r1.confidence + r2.confidence) / 2 } ::
        group_multiline_items rest image_size
    else r1 :: group_multiline_items (r2 :: rest) image_size

/-! ## Structured extraction -/

/-- Reconstruct a word's text: the symbol texts concatenated with the
empty separator, as the source joins symbols within a word. -/
def wordText (w : Word) : String := String.join (w.symbols.map Sym.text)

/-- Join strings with single spaces (`' '.join(words)`). -/
def joinSpace : List String → String
  | [] => String.mk []
  | [s] => s
  | s :: rest => s ++ singleSpace ++ joinSpace rest

/-- Reconstruct a paragraph's text: words joined by spaces, stripped. -/
def paragraphText (p : Paragraph) : String :=
  stripStr (joinSpace (p.words.map wordText))

/-- The page's pixel dimensions, defaulting to 1×1 when absent. -/
def pageSize (page : Page) : ℚ × ℚ :=
  (page.width.getD 1, page.height.getD 1)

/-- Build one `TextRegion` per paragraph with non-empty text, normalizing
its polygon against the page size; a geometry failure aborts the whole
extraction (the exception propagates to the caller's `try`). -/
def buildRegions (size : ℚ × ℚ) :
    List Paragraph → Except RegionError (List TextRegion)
  | [] => .ok []
  | p :: ps =>
    let t := paragraphText p
    if t.data.isEmpty then buildRegions size ps
    else
      match normalize_bounding_box p.bounding_box.vertices size with
      | .error e => .error e
      | .ok bb =>
        match buildRegions size ps with
        | .error e => .error e
        | .ok rest => .ok (⟨t, bb, p.confidence.getD 1⟩ :: rest)

/-- Structured fallback extractor (the source function that walks the
full text tree directly): paragraph-level regions of the first page;
empty when there are no pages. -/
def extract_regions_from_full_anno (ft : FullTextAnno) :
    Except RegionError (List TextRegion) :=
  match ft.pages with
  | [] => .ok []
  | page :: _ =>
    buildRegions (pageSize page) ((page.blocks.map Block.paragraphs).flatten)

/-- Function `detect_smart_regions`: structured extraction of the first page,
sorting by vertical center, boundary detection, classification, and
multi-line merge; items first, tax/tip regions appended last. -/
def detect_smart_regions (resp : VisionResponse) :
    Except RegionError (List TextRegion) :=
  match resp.full_text_anno with
  | none => .error .missingStructure
  | some ft =>
    match ft.pages with
    | [] => .error .missingStructure
    | page :: _ =>
      let image_size := pageSize page
      match buildRegions image_size ((page.blocks.map Block.paragraphs).flatten) with
      | .error e => .error e
      | .ok paras =>
        let all_paragraphs := sortByCenterY paras
        let header_end_y := detect_header_boundary all_paragraphs
        let footer_start_y := detect_footer_boundary all_paragraphs
        let classified := classifyBody header_end_y footer_start_y all_paragraphs
        .ok (group_multiline_items classified.1 image_size ++ classified.2)

/-! ## Flat extraction (`_extract_regions_from_text_annos`) -/

/-- Python `int(q)`: truncation toward zero. -/
def truncQ (q : ℚ) : ℤ := if 0 ≤ q then ⌊q⌋ else ⌈q⌉

/-- The 10-pixel line bucket of a vertical center
(`int(center_y / 10) * 10`). -/
def lineKey (center_y : ℚ) : ℤ := truncQ (center_y / 10) * 10

/-- The minimum x coordinate of a token's vertices; a token with no usable
x raises inside the line sort (`min(v.x for v in item[1] ...)`). -/
def minXOf (vs : List Vertex) : Except RegionError ℚ :=
  match vs.filterMap Vertex.x with
  | [] => .error .invalidGeometry
  | x :: xs => .ok (xs.foldl min x)

/-- A token surviving the grouping loop: its line bucket, text and
vertices. -/
def tokenOf (a : FlatAnno) : Option (ℤ × String × List Vertex) :=
  if a.bounding_poly.vertices.isEmpty then none
  else
    match a.bounding_poly.vertices.filterMap Vertex.y with
    | [] => none
    | y0 :: yr =>
      let ys := y0 :: yr
      let center_y := (ys.foldl (fun s v => s + v) 0) / (ys.length : ℚ)
      some (lineKey center_y, a.description, a.bounding_poly.vertices)

/-- Build one line region: sort the line's tokens by their minimum x
(stable), join their texts with spaces, and normalize the union of their
vertices. -/
def buildLine (size : ℚ × ℚ) (items : List (ℤ × String × List Vertex)) :
    Except RegionError TextRegion :=
  match items.mapM (fun it => (minXOf it.2.2).map fun mx => (mx, it)) with
  | .error e => .error e
  | .ok keyed =>
    let sorted := (sortByKey (fun p => p.1) keyed).map fun p => p.2
    let text := joinSpace (sorted.map fun it => it.2.1)
    match normalize_bounding_box ((sorted.map fun it => it.2.2).flatten) size with
    | .error e => .error e
    | .ok bb => .ok ⟨text, bb, 1⟩

/-- Build the line regions for each bucket key in ascending order. -/
def buildLines (size : ℚ × ℚ) (toks : List (ℤ × String × List Vertex)) :
    List ℤ → Except RegionError (List TextRegion)
  | [] => .ok []
  | k :: ks =>
    match buildLine size (toks.filter fun t => t.1 = k) with
    | .error e => .error e
    | .ok r =>
      match buildLines size toks ks with
      | .error e => .error e
      | .ok rest => .ok (r :: rest)

/-- Keys in first-occurrence order (Python dict insertion order). -/
def firstOccurrences : List ℤ → List ℤ
  | [] => []
  | k :: ks =>
    k :: (firstOccurrences ks).filter fun k2 => k2 ≠ k

/-- Flat extractor (the source function over the token list): infer the
image size from the first (whole-image) element, bucket the remaining
tokens into 10-pixel lines, and emit one region per line in ascending
bucket order. -/
def extract_regions_from_text_annos (annos : List FlatAnno) :
    Except RegionError (List TextRegion) :=
  if annos.length < 2 then .ok []
  else
    match annos with
    | [] => .ok []
    | first :: rest =>
      match first.bounding_poly.vertices.filterMap Vertex.x,
          first.bounding_poly.vertices.filterMap Vertex.y with
      | [], _ => .error .invalidGeometry
      | _ :: _, [] => .error .invalidGeometry
      | x0 :: xr, y0 :: yr =>
        let image_size := (xr.foldl max x0, yr.foldl max y0)
        let toks := rest.filterMap tokenOf
        let keys := sortByKey id (firstOccurrences (toks.map fun t => t.1))
        buildLines image_size toks keys

/-! ## Filter fallback (`filter_item_regions`) -/

/-- The header-boundary scan of `filter_item_regions`: first price region
sets `max(0.05, y_min - 0.02)`; default 0.1. -/
def filterHeaderScan : List TextRegion → ℚ
  | [] => 1 / 10
  | r :: rest =>
    if r.has_price_pattern then max (5 / 100) (r.bounding_box.y_min - 2 / 100)
    else filterHeaderScan rest

/-- The footer-boundary loop of `filter_item_regions`, over the reversed
sorted list: a keyword match sets `min(0.95, y_min)`; the loop stops as
soon as the current boundary is `< 0.9`. -/
def filterFooterScan (footer_start_y : ℚ) : List TextRegion → ℚ
  | [] => footer_start_y
  | r :: rest =>
    let fb := if filterFooterKeywordMatch r.text then
        min (95 / 100) r.bounding_box.y_min
      else footer_start_y
    if fb < 9 / 10 then fb else filterFooterScan fb rest

/-- The footer boundary computed inside `filter_item_regions` for a given
input list (bottom-up scan of the center-sorted regions, default 0.9). -/
def filterFooterBoundary (regions : List TextRegion) : ℚ :=
  filterFooterScan (9 / 10) (sortByCenterY regions).reverse

/-- The all-digits test of the filter: the source removes every space,
period, comma and dollar sign and then asks Python isdigit, which holds
iff the remainder is non-empty and all digits. -/
def isDigitsOnly (t : String) : Bool :=
  let s := t.data.filter fun c => !(c = ' ' || c = '.' || c = ',' || c = '$')
  !s.isEmpty && s.all isDigitChar

/-- The per-region keep test of `filter_item_regions`, applying the skip
rules in source order. -/
def filterKeep (header_end_y footer_start_y : ℚ) (r : TextRegion) : Bool :=
  !(decide (r.bounding_box.center_y < header_end_y)) &&
  !(decide (footer_start_y < r.bounding_box.center_y)) &&
  !(decide (r.bounding_box.area < 3 / 1000)) &&
  !(decide (1 / 2 < r.bounding_box.area)) &&
  !(decide ((stripChars r.text.data).length ≤ 1)) &&
  !(decide (r.bounding_box.height < 8 / 1000)) &&
  !(filterHeaderPatternMatch r.text) &&
  !(filterFooterPatternMatch r.text) &&
  !(isDigitsOnly r.text && !r.has_price_pattern) &&
  !(decide ((stripChars r.text.data).length < 3) && !r.has_price_pattern)

/-- Function `filter_item_regions`: sort by vertical center, derive header/footer
boundaries, and keep the regions passing every heuristic. -/
def filter_item_regions (regions : List TextRegion) : List TextRegion :=
  if regions.isEmpty then []
  else
    let sorted_regions := sortByCenterY regions
    let header_end_y := filterHeaderScan sorted_regions
    let footer_start_y := filterFooterScan (9 / 10) sorted_regions.reverse
    sorted_regions.filter (filterKeep header_end_y footer_start_y)

/-! ## Extraction orchestration (`detect_regions`) -/

/-- The `full_text_anno` fallback attempt: absent or failing
extraction yields no regions (the exception is caught and logged). -/
def fallbackFull (resp : VisionResponse) : List TextRegion :=
  match resp.full_text_anno with
  | none => []
  | some ft =>
    match extract_regions_from_full_anno ft with
    | .ok rs => rs
    | .error _ => []

/-- The fallback cascade of `detect_regions` after the smart attempt: the
structured extraction (exceptions caught, absent tree skipped), then —
only when that yielded nothing and a flat token list is present —
the flat extraction (exceptions caught). -/
def fallbackRegions (r : VisionResponse) : List TextRegion :=
  let regions := fallbackFull r
  if regions.isEmpty && !r.text_annos.isEmpty then
    match extract_regions_from_text_annos r.text_annos with
    | .ok rs => rs
    | .error _ => []
  else regions

/-- Function `detect_regions`: smart detection first (returned unfiltered when it
produces regions; exceptions caught), then the structured fallback, then
the flat fallback, then `NoRegionsFound`; fallback output goes through
`filter_item_regions`. -/
def detect_regions (resp : Option VisionResponse) :
    Except RegionError (List TextRegion) :=
  match resp with
  | none => .error .nullResponse
  | some r =>
    match detect_smart_regions r with
    | .ok (reg :: regs) => .ok (reg :: regs)
    | _ =>
      let regions := fallbackRegions r
      if regions.isEmpty then .error .noRegions
      else .ok (filter_item_regions regions)

/-! ## TTL cache -/

/-- Cache errors (`ValueError`s of `cache_ocr_response`). -/
inductive CacheError where
  | emptyKey
  | negativeTtl
  deriving DecidableEq, Repr

/-- The cache store: keys with their cached value and absolute expiry
time, in insertion order (a Python dict). -/
abbrev CacheState (α : Type) := List (String × α × ℚ)

/-- Python dict assignment `_cache[key] = entry`: update in place when the
key exists, else append. -/
def setEntry (k : String) (v : α) (expiry : ℚ) :
    CacheState α → CacheState α
  | [] => [(k, v, expiry)]
  | e :: rest =>
    if e.1 = k then (k, v, expiry) :: rest else e :: setEntry k v expiry rest

/-- Function `_cleanup_expired_cache`: drop every entry whose expiry has passed
(`current_time > expiry_time`), regardless of key. -/
def cleanup_expired_cache (now : ℚ) (c : CacheState α) : CacheState α :=
  c.filter fun e => !(decide (e.2.2 < now))

/-- Function `cache_ocr_response(key, response, ttl)` at time `now`: reject an
empty key or negative ttl, store `(response, now + ttl)`, then sweep
expired entries. -/
def cache_ocr_response (key : String) (response : α) (ttl : ℚ) (now : ℚ)
    (c : CacheState α) : Except CacheError (CacheState α) :=
  if key.data.isEmpty then .error .emptyKey
  else if ttl < 0 then .error .negativeTtl
  else .ok (cleanup_expired_cache now (setEntry key response (now + ttl) c))

/-- Dict lookup `key in _cache` / `_cache[key]`. -/
def lookupEntry (k : String) : CacheState α → Option (α × ℚ)
  | [] => none
  | e :: rest => if e.1 = k then some e.2 else lookupEntry k rest

/-- Python `del _cache[key]`. -/
def eraseEntry (k : String) : CacheState α → CacheState α
  | [] => []
  | e :: rest => if e.1 = k then rest else e :: eraseEntry k rest

/-- Function `get_cached_response(key)` at time `now`: `none` for an empty or
absent key; an expired entry is evicted and `none` returned; otherwise
the stored value and the unchanged cache. -/
def get_cached_response (key : String) (now : ℚ) (c : CacheState α) :
    Option α × CacheState α :=
  if key.data.isEmpty then (none, c)
  else
    match lookupEntry key c with
    | none => (none, c)
    | some (v, expiry) =>
      if expiry < now then (none, eraseEntry key c) else (some v, c)

/-! ## Concrete fixtures used by the claim theorems -/

/-- The empty string (an empty cache key). -/
def emptyStr : String := ""

/-- Sample text of the end-to-end scenario's header paragraph. -/
def wJoes : String := "Joe\x27s"

/-- Second word of the header paragraph. -/
def wDiner : String := "Diner"

/-- The item-description paragraph of the scenario. -/
def wBurger : String := "Burger"

/-- The bare-price paragraph of the scenario. -/
def wPrice899 : String := "$8.99"

/-- First word of the tax paragraph. -/
def wTax : String := "Tax"

/-- Second word of the tax paragraph. -/
def wPrice072 : String := "$0.72"

/-- First word of the footer paragraph. -/
def wThank : String := "Thank"

/-- Second word of the footer paragraph. -/
def wYou : String := "you"

/-- Expected merged item text of the scenario. -/
def txtBurgerPrice : String := "Burger $8.99"

/-- Expected tax/tip region text of the scenario. -/
def txtTaxPrice : String := "Tax $0.72"

/-- A short non-item token for the flat-extractor fixture. -/
def txtAb : String := "ab"

/-- A footer keyword text positioned high on the page. -/
def txtSubtotal : String := "Subtotal"

/-- A footer keyword text positioned low on the page. -/
def txtTotal : String := "Total"

/-- A priceless description line for the merge fixtures. -/
def txtDesc : String := "Desc"

/-- A bare price line for the merge fixtures. -/
def txtPrice500 : String := "$5.00"

/-- Test string of C5: matches the first price pattern. -/
def sDollar1299 : String := "$12.99"

/-- Test string of C5: matches the USD price pattern. -/
def s1299USD : String := "12.99 USD"

/-- Test string of C5: matches the bare two-decimal pattern. -/
def s1299 : String := "12.99"

/-- Test string of C5: no decimal point, must not match. -/
def s1299nodot : String := "1299"

/-- Test string of C5: no cents, must not match. -/
def sDollar12 : String := "$12"

/-- A vertex with both pixel coordinates present. -/
def vx (a b : ℚ) : Vertex := ⟨some a, some b⟩

/-- A one-symbol-per-word paragraph with a two-vertex polygon and absent
confidence (defaulting to 1). -/
def mkPara (ws : List String) (v1 v2 : Vertex) : Paragraph :=
  ⟨ws.map (fun s => ⟨[⟨s⟩]⟩), ⟨[v1, v2]⟩, none⟩

/-- The structured response of the spec's end-to-end scenario: header
`Joe's Diner` at y=0.01–0.03, body `Burger` (y=0.40–0.42), `$8.99`
(y=0.43–0.45), one paragraph `Tax $0.72` spanning two adjacent lines
(y=0.50–0.55), footer `Thank you` at y=0.94–0.96, on a 1000×1000 page. -/
def respScenario : VisionResponse :=
  ⟨some ⟨[⟨some 1000, some 1000,
    [⟨[mkPara [wJoes, wDiner] (vx 300 10) (vx 700 30),
       mkPara [wBurger] (vx 50 400) (vx 500 420),
       mkPara [wPrice899] (vx 600 430) (vx 800 450),
       mkPara [wTax, wPrice072] (vx 50 500) (vx 800 550),
       mkPara [wThank, wYou] (vx 200 940) (vx 800 960)]⟩]⟩]⟩, []⟩

/-- A structured response whose single paragraph `$8.99` survives smart
detection but is thinner than the filter fallback's 0.008 height
minimum. -/
def respThin : VisionResponse :=
  ⟨some ⟨[⟨some 1000, some 1000,
    [⟨[mkPara [wPrice899] (vx 50 430) (vx 550 437)]⟩]⟩]⟩, []⟩

/-- The single region smart detection extracts from `respThin`. -/
def regionThin : TextRegion :=
  ⟨wPrice899, ⟨1 / 20, 43 / 100, 11 / 20, 437 / 1000⟩, 1⟩

/-- A flat-only response: the whole-image aggregate element plus one
short token `ab`, which the filter fallback rejects (length < 3, no
price). -/
def respFlat : VisionResponse :=
  ⟨none, [⟨txtAb, ⟨[vx 0 0, vx 100 100]⟩⟩, ⟨txtAb, ⟨[vx 10 50, vx 90 60]⟩⟩]⟩

/-- The region the flat extractor produces from `respFlat`. -/
def regionAb : TextRegion := ⟨txtAb, ⟨1 / 10, 1 / 2, 9 / 10, 3 / 5⟩, 1⟩

/-- A keyword region high on the receipt (center 0.51). -/
def rSubtotalHigh : TextRegion := ⟨txtSubtotal, ⟨1 / 10, 1 / 2, 9 / 10, 13 / 25⟩, 1⟩

/-- A keyword region low on the receipt with `y_min = 0.93 ≥ 0.9`. -/
def rTotalLow : TextRegion := ⟨txtTotal, ⟨1 / 10, 93 / 100, 9 / 10, 95 / 100⟩, 1⟩

/-- A non-keyword item region (center 0.5) for the C8 witness. -/
def rBurgerMid : TextRegion := ⟨wBurger, ⟨1 / 10, 49 / 100, 9 / 10, 51 / 100⟩, 1⟩

/-- A keyword region with `y_min = 0.8 < 0.9` for the C8 witness. -/
def rTotalNormal : TextRegion := ⟨txtTotal, ⟨1 / 10, 4 / 5, 9 / 10, 21 / 25⟩, 1⟩

/-- A priceless description whose box spans y 0.40–0.50 (center 0.45). -/
def rDesc : TextRegion := ⟨txtDesc, ⟨1 / 10, 2 / 5, 1 / 2, 1 / 2⟩, 1⟩

/-- A price region whose box spans y 0.38–0.56 (center 0.47): sorted
after `rDesc` by center, yet starting higher up than it. -/
def rPrice : TextRegion := ⟨txtPrice500, ⟨3 / 5, 19 / 50, 9 / 10, 14 / 25⟩, 1⟩

/-- The vertex list of the C6 witness box. -/
def vertsC6 : List Vertex := [vx 50 400, vx 500 450]

/-- The normalized box of the C6 witness. -/
def bbC6 : BoundingBox := ⟨1 / 20, 2 / 5, 1 / 2, 9 / 20⟩

/-- Cache key for the cache witnesses. -/
def keyA : String := "img-a"

/-- A second cache key, absent from the witness cache. -/
def keyB : String := "img-b"

/-! ## Helper lemmas -/

/-- A left fold of `min` never exceeds its initial value. -/
theorem foldl_min_le_init (l : List ℚ) (x0 : ℚ) : l.foldl min x0 ≤ x0 := by
  induction l generalizing x0 with
  | nil => exact le_rfl
  | cons a t ih => exact (ih (min x0 a)).trans (min_le_left x0 a)

/-- A left fold of `max` is at least its initial value. -/
theorem init_le_foldl_max (l : List ℚ) (x0 : ℚ) : x0 ≤ l.foldl max x0 := by
  induction l generalizing x0 with
  | nil => exact le_rfl
  | cons a t ih => exact (le_max_left x0 a).trans (ih (max x0 a))

/-- Clamping is monotone. -/
theorem clamp01_mono {a b : ℚ} (h : a ≤ b) : clamp01 a ≤ clamp01 b :=
  max_le_max le_rfl (min_le_min le_rfl h)

/-- Clamped values are at least 0. -/
theorem clamp01_nonneg (v : ℚ) : 0 ≤ clamp01 v := le_max_left 0 _

/-- Clamped values are at most 1. -/
theorem clamp01_le_one (v : ℚ) : clamp01 v ≤ 1 :=
  max_le (by norm_num) (min_le_left 1 v)

/-- The smart footer scan never goes below 0.75. -/
theorem footerScanSmart_ge (l : List TextRegion) :
    75 / 100 ≤ footerScanSmart l := by
  induction l with
  | nil => norm_num [footerScanSmart]
  | cons r t ih =>
    by_cases h : smartFooterKeywordMatch r.text
    · simp only [footerScanSmart, h, if_true]
      exact le_max_right _ _
    · simpa only [footerScanSmart, h, if_false] using ih

/-- The filter footer scan never exceeds 0.95 when started at most 0.95. -/
theorem filterFooterScan_le (l : List TextRegion) (fb : ℚ)
    (h : fb ≤ 95 / 100) : filterFooterScan fb l ≤ 95 / 100 := by
  induction l generalizing fb with
  | nil => exact h
  | cons r t ih =>
    simp only [filterFooterScan]
    by_cases hk : filterFooterKeywordMatch r.text = true
    · rw [if_pos hk]
      by_cases hlt : min ((95 : ℚ) / 100) r.bounding_box.y_min < 9 / 10
      · rw [if_pos hlt]
        exact min_le_left _ _
      · rw [if_neg hlt]
        exact ih _ (min_le_left _ _)
    · rw [if_neg hk]
      by_cases hlt : fb < (9 : ℚ) / 10
      · rw [if_pos hlt]
        exact h
      · rw [if_neg hlt]
        exact ih _ h

/-- Regions without a footer keyword leave the filter footer scan's
running boundary unchanged; while it is not below 0.9 the scan never
stops, so over a match-free list it returns the boundary it started
with. -/
theorem filterFooterScan_noMatch (m : List TextRegion) (fb : ℚ)
    (hfb : ¬ fb < 9 / 10)
    (hm : ∀ x ∈ m, filterFooterKeywordMatch x.text = false) :
    filterFooterScan fb m = fb := by
  induction m with
  | nil => rfl
  | cons x t ih =>
    have hx : ¬ filterFooterKeywordMatch x.text = true := by
      simp [hm x (List.mem_cons_self x t)]
    simp only [filterFooterScan]
    rw [if_neg hx, if_neg hfb]
    exact ih fun y hy => hm y (List.mem_cons_of_mem x hy)

/-- Walking the filter footer scan across a prefix whose keyword matches
all have `min(0.95, y_min) ≥ 0.9`: the scan never stops there (the
running boundary stays at or above 0.9, whether kept or overwritten), so
it continues into the rest with some still-high boundary. -/
theorem filterFooterScan_skipHigh (m rest : List TextRegion) (fb : ℚ)
    (hfb : ¬ fb < 9 / 10)
    (hm : ∀ x ∈ m, filterFooterKeywordMatch x.text = true →
      ¬ min ((95 : ℚ) / 100) x.bounding_box.y_min < 9 / 10) :
    ∃ fb', ¬ fb' < 9 / 10 ∧
      filterFooterScan fb (m ++ rest) = filterFooterScan fb' rest := by
  induction m generalizing fb with
  | nil => exact ⟨fb, hfb, rfl⟩
  | cons x t ih =>
    by_cases hx : filterFooterKeywordMatch x.text = true
    · have hhigh := hm x (List.mem_cons_self x t) hx
      obtain ⟨fb', h1, h2⟩ := ih (min (95 / 100) x.bounding_box.y_min) hhigh
        (fun y hy hmy => hm y (List.mem_cons_of_mem x hy) hmy)
      refine ⟨fb', h1, ?_⟩
      rw [List.cons_append]
      simp only [filterFooterScan]
      rw [if_pos hx, if_neg hhigh]
      exact h2
    · obtain ⟨fb', h1, h2⟩ := ih fb hfb
        (fun y hy hmy => hm y (List.mem_cons_of_mem x hy) hmy)
      refine ⟨fb', h1, ?_⟩
      rw [List.cons_append]
      simp only [filterFooterScan]
      rw [if_neg hx, if_neg hfb]
      exact h2

/-- Membership is preserved by sorted insertion. -/
theorem mem_insertSorted [LinearOrder β] (key : α → β) (a x : α)
    (l : List α) : x ∈ insertSorted key a l ↔ x = a ∨ x ∈ l := by
  induction l with
  | nil => simp [insertSorted]
  | cons y ys ih =>
    simp only [insertSorted]
    split
    · simp [List.mem_cons]
    · simp only [List.mem_cons, ih]
      tauto

/-- The stable insertion sort permutes its input: membership is
unchanged. -/
theorem mem_sortByKey [LinearOrder β] (key : α → β) (l : List α) (x : α) :
    x ∈ sortByKey key l ↔ x ∈ l := by
  induction l with
  | nil => simp [sortByKey]
  | cons a t ih =>
    simp [sortByKey, mem_insertSorted, ih]

/-! ## Claim theorems -/

/-- C1 (counterexample): `_group_multiline_items` merges the adjacent pair
`rDesc`/`rPrice` (gap `< 0.05`, exactly one price pattern), but the merged
bounding box is not the geometric union of the two source boxes: its
`y_min` is the first region's `y_min` (2/5), not the minimum of the two
`y_min`s (19/50). -/
theorem group_multiline_merge_union_counterexample :
    (rPrice.bounding_box.y_min - rDesc.bounding_box.y_max < 5 / 100 ∧
      rDesc.has_price_pattern ≠ rPrice.has_price_pattern) ∧
    group_multiline_items [rDesc, rPrice] (1, 1) =
      [⟨txtDesc ++ singleSpace ++ txtPrice500,
        ⟨1 / 10, 2 / 5, 9 / 10, 14 / 25⟩, 1⟩] ∧
    ((⟨1 / 10, 2 / 5, 9 / 10, 14 / 25⟩ : BoundingBox) ≠
      ⟨min rDesc.bounding_box.x_min rPrice.bounding_box.x_min,
       min rDesc.bounding_box.y_min rPrice.bounding_box.y_min,
       max rDesc.bounding_box.x_max rPrice.bounding_box.x_max,
       max rDesc.bounding_box.y_max rPrice.bounding_box.y_max⟩) := by
  with_unfolding_all decide

/-- C1 (amended): whenever `_group_multiline_items` merges an adjacent
pair (vertical gap `next.y_min - current.y_max < 0.05`, exactly one of the
two with a price pattern), the merged region has text
`"{current} {next}"`, confidence the arithmetic mean of the two, and a
bounding box with `x_min`/`x_max` the min/max of the sources but `y_min`
taken from the first region and `y_max` from the second (the geometric
union only when the first box neither starts below nor ends below the
second). -/
theorem group_multiline_merge_spec (r1 r2 : TextRegion)
    (rest : List TextRegion) (image_size : ℚ × ℚ)
    (hgap : r2.bounding_box.y_min - r1.bounding_box.y_max < 5 / 100)
    (hxor : r1.has_price_pattern ≠ r2.has_price_pattern) :
    group_multiline_items (r1 :: r2 :: rest) image_size =
      ⟨r1.text ++ singleSpace ++ r2.text,
       ⟨min r1.bounding_box.x_min r2.bounding_box.x_min,
        r1.bounding_box.y_min,
        max r1.bounding_box.x_max r2.bounding_box.x_max,
        r2.bounding_box.y_max⟩,
       (r1.confidence + r2.confidence) / 2⟩ ::
      group_multiline_items rest image_size := by
  simp only [group_multiline_items]
  rw [if_pos ⟨hgap, hxor⟩]

/-- C1 (witness): the amended merge equation at the concrete pair
`rDesc`/`rPrice`. -/
theorem group_multiline_merge_spec_witness :
    group_multiline_items [rDesc, rPrice] (1, 1) =
      ⟨rDesc.text ++ singleSpace ++ rPrice.text,
       ⟨min rDesc.bounding_box.x_min rPrice.bounding_box.x_min,
        rDesc.bounding_box.y_min,
        max rDesc.bounding_box.x_max rPrice.bounding_box.x_max,
        rPrice.bounding_box.y_max⟩,
       (rDesc.confidence + rPrice.confidence) / 2⟩ ::
      group_multiline_items [] (1, 1) :=
  group_multiline_merge_spec rDesc rPrice [] (1, 1)
    (by with_unfolding_all decide) (by with_unfolding_all decide)

/-- C2: on the spec's end-to-end structured scenario (header `Joe's
Diner`, body `Burger`, `$8.99`, `Tax $0.72`, footer `Thank you`),
`detect_smart_regions` returns exactly one merged item region with text
`Burger $8.99` and one tax/tip region with text `Tax $0.72`; neither the
header nor the footer paragraph appears. -/
theorem detect_smart_regions_end_to_end :
    detect_smart_regions respScenario =
      .ok [⟨txtBurgerPrice, ⟨1 / 20, 2 / 5, 4 / 5, 9 / 20⟩, 1⟩,
           ⟨txtTaxPrice, ⟨1 / 20, 1 / 2, 4 / 5, 11 / 20⟩, 1⟩] := by
  with_unfolding_all decide

/-- C3 (counterexample): on `respThin` the smart strategy produces
`[regionThin]` and `detect_regions` returns it unfiltered, yet
`filter_item_regions` applied to that surviving list is empty — so the
returned list is not the filter of the surviving list. -/
theorem detect_regions_smart_unfiltered_counterexample :
    detect_smart_regions respThin = .ok [regionThin] ∧
    detect_regions (some respThin) = .ok [regionThin] ∧
    filter_item_regions [regionThin] = [] := by
  with_unfolding_all decide

/-- C3 (amended): when the smart strategy produces a non-empty region
list, `detect_regions` returns it directly without the filter pass; only
when the smart strategy fails or produces nothing is the fallback region
list run through `filter_item_regions` before being returned. -/
theorem detect_regions_filter_application (r : VisionResponse) :
    (∀ reg regs, detect_smart_regions r = .ok (reg :: regs) →
      detect_regions (some r) = .ok (reg :: regs)) ∧
    ((detect_smart_regions r = .ok [] ∨
        ∃ e, detect_smart_regions r = .error e) →
      fallbackRegions r ≠ [] →
      detect_regions (some r) = .ok (filter_item_regions (fallbackRegions r))) := by
  constructor
  · intro reg regs h
    simp [detect_regions, h]
  · intro hsmart hfb
    have hne : (fallbackRegions r).isEmpty = false := by
      simpa [List.isEmpty_iff] using hfb
    rcases hsmart with h | ⟨e, h⟩ <;> simp [detect_regions, h, hne]

/-- C3 (witness): the amended cascade at concrete inputs — the smart path
of `respThin` returned unfiltered, the fallback path of `respFlat`
returned through the filter. -/
theorem detect_regions_filter_application_witness :
    detect_regions (some respThin) = .ok [regionThin] ∧
    detect_regions (some respFlat) =
      .ok (filter_item_regions (fallbackRegions respFlat)) :=
  ⟨(detect_regions_filter_application respThin).1 regionThin []
      (by with_unfolding_all decide),
   (detect_regions_filter_application respFlat).2
      (Or.inr ⟨RegionError.missingStructure, by with_unfolding_all decide⟩)
      (by with_unfolding_all decide)⟩

/-- C4: `cache_ocr_response` rejects an empty key or a negative ttl with
an error; otherwise it stores `(value, now + ttl)` and sweeps every
expired entry (no surviving entry has an expiry before `now`).
`get_cached_response` returns the stored value when the key is present
and unexpired, evicts and returns nothing when present but expired, and
returns nothing when absent. -/
theorem cache_put_get_contract (α : Type) (key : String) (v : α)
    (ttl now : ℚ) (c : CacheState α) :
    (key.data.isEmpty = true ∨ ttl < 0 →
      ∃ e, cache_ocr_response key v ttl now c = .error e) ∧
    (key.data.isEmpty = false → 0 ≤ ttl →
      cache_ocr_response key v ttl now c =
        .ok (cleanup_expired_cache now (setEntry key v (now + ttl) c)) ∧
      ∀ entry ∈ cleanup_expired_cache now (setEntry key v (now + ttl) c),
        ¬ entry.2.2 < now) ∧
    (key.data.isEmpty = false →
      ∀ val expiry, lookupEntry key c = some (val, expiry) →
        (now ≤ expiry → get_cached_response key now c = (some val, c)) ∧
        (expiry < now →
          get_cached_response key now c = (none, eraseEntry key c))) ∧
    (key.data.isEmpty = false → lookupEntry key c = none →
      get_cached_response key now c = (none, c)) := by
  refine ⟨?_, ?_, ?_, ?_⟩
  · rintro (hk | ht)
    · exact ⟨.emptyKey, by simp [cache_ocr_response, hk]⟩
    · by_cases hk : key.data.isEmpty = true
      · exact ⟨.emptyKey, by simp [cache_ocr_response, hk]⟩
      · exact ⟨.negativeTtl, by simp [cache_ocr_response, hk, ht]⟩
  · intro hk ht
    constructor
    · unfold cache_ocr_response
      rw [if_neg (by simp [hk]), if_neg (not_lt.mpr ht)]
    · intro entry hmem
      simp only [cleanup_expired_cache, List.mem_filter] at hmem
      simpa using hmem.2
  · intro hk val expiry hl
    constructor
    · intro hle
      unfold get_cached_response
      rw [if_neg (by simp [hk]), hl]
      simp [not_lt.mpr hle]
    · intro hlt
      unfold get_cached_response
      rw [if_neg (by simp [hk]), hl]
      simp [hlt]
  · intro hk hl
    unfold get_cached_response
    rw [if_neg (by simp [hk]), hl]

/-- C4 (witness): the cache contract at concrete inputs — empty-key
rejection, a store with sweep, a fresh hit, an expired eviction, and an
absent-key miss. -/
theorem cache_put_get_contract_witness :
    (∃ e, cache_ocr_response emptyStr (0 : ℕ) 900 0 [] = .error e) ∧
    cache_ocr_response keyA (1 : ℕ) 900 100 [] =
      .ok (cleanup_expired_cache 100 (setEntry keyA 1 (100 + 900) [])) ∧
    get_cached_response keyA 500 [(keyA, (1 : ℕ), 1000)] =
      (some 1, [(keyA, 1, 1000)]) ∧
    get_cached_response keyA 2000 [(keyA, (1 : ℕ), 1000)] =
      (none, eraseEntry keyA [(keyA, 1, 1000)]) ∧
    get_cached_response keyB 500 [(keyA, (1 : ℕ), 1000)] =
      (none, [(keyA, 1, 1000)]) :=
  ⟨(cache_put_get_contract ℕ emptyStr 0 900 0 []).1 (Or.inl (by decide)),
   ((cache_put_get_contract ℕ keyA 1 900 100 []).2.1 (by decide)
      (by norm_num)).1,
   ((cache_put_get_contract ℕ keyA 1 900 500 [(keyA, 1, 1000)]).2.2.1
      (by decide) 1 1000 (by with_unfolding_all decide)).1 (by norm_num),
   ((cache_put_get_contract ℕ keyA 1 900 2000 [(keyA, 1, 1000)]).2.2.1
      (by decide) 1 1000 (by with_unfolding_all decide)).2 (by norm_num),
   (cache_put_get_contract ℕ keyB 1 900 500 [(keyA, 1, 1000)]).2.2.2
      (by decide) (by with_unfolding_all decide)⟩

/-- C5: `has_price_pattern` holds for a region whose text is exactly
`$12.99`, `12.99 USD`, or `12.99`, and fails for `1299` and `$12`,
whatever its box and confidence. -/
theorem has_price_pattern_examples (bb : BoundingBox) (conf : ℚ) :
    (TextRegion.mk sDollar1299 bb conf).has_price_pattern = true ∧
    (TextRegion.mk s1299USD bb conf).has_price_pattern = true ∧
    (TextRegion.mk s1299 bb conf).has_price_pattern = true ∧
    (TextRegion.mk s1299nodot bb conf).has_price_pattern = false ∧
    (TextRegion.mk sDollar12 bb conf).has_price_pattern = false := by
  refine ⟨?_, ?_, ?_, ?_, ?_⟩
  · show has_price_pattern sDollar1299 = true
    decide
  · show has_price_pattern s1299USD = true
    decide
  · show has_price_pattern s1299 = true
    decide
  · show has_price_pattern s1299nodot = false
    decide
  · show has_price_pattern sDollar12 = false
    decide

/-- C6: `normalize_bounding_box` fails with `InvalidGeometry` exactly for
an empty vertex list, a missing usable x or y coordinate, or a
non-positive image dimension; every successful result has all four
coordinates in `[0, 1]` with `x_min ≤ x_max` and `y_min ≤ y_max`. -/
theorem normalize_bounding_box_contract (vertices : List Vertex) (w h : ℚ) :
    (normalize_bounding_box vertices (w, h) = .error .invalidGeometry ↔
      vertices = [] ∨ w ≤ 0 ∨ h ≤ 0 ∨
        vertices.filterMap Vertex.x = [] ∨
        vertices.filterMap Vertex.y = []) ∧
    (∀ bb, normalize_bounding_box vertices (w, h) = .ok bb →
      0 ≤ bb.x_min ∧ bb.x_min ≤ bb.x_max ∧ bb.x_max ≤ 1 ∧
      0 ≤ bb.y_min ∧ bb.y_min ≤ bb.y_max ∧ bb.y_max ≤ 1) := by
  by_cases hv : vertices = []
  · subst hv
    constructor
    · simp [normalize_bounding_box]
    · intro bb hbb
      simp [normalize_bounding_box] at hbb
  · have hv' : vertices.isEmpty = false := by
      simpa [List.isEmpty_iff] using hv
    by_cases hwh : w ≤ 0 ∨ h ≤ 0
    · constructor
      · constructor
        · intro _
          tauto
        · intro _
          unfold normalize_bounding_box
          rw [if_neg (by simp [hv']), if_pos hwh]
      · intro bb hbb
        simp [normalize_bounding_box, hv', hwh] at hbb
    · push_neg at hwh
      obtain ⟨hw, hh⟩ := hwh
      have hw' : ¬ (w ≤ 0) := not_le.mpr hw
      have hh' : ¬ (h ≤ 0) := not_le.mpr hh
      rcases hx : vertices.filterMap Vertex.x with _ | ⟨x0, xr⟩
      · constructor
        · simp [normalize_bounding_box, hv', hv, hw', hh', hx]
        · intro bb hbb
          simp [normalize_bounding_box, hv', hw', hh', hx] at hbb
      · rcases hy : vertices.filterMap Vertex.y with _ | ⟨y0, yr⟩
        · constructor
          · simp [normalize_bounding_box, hv', hv, hw', hh', hx, hy]
          · intro bb hbb
            simp [normalize_bounding_box, hv', hw', hh', hx, hy] at hbb
        · have hnorm : normalize_bounding_box vertices (w, h) =
              .ok ⟨clamp01 ((xr.foldl min x0) / w),
                   clamp01 ((yr.foldl min y0) / h),
                   clamp01 ((xr.foldl max x0) / w),
                   clamp01 ((yr.foldl max y0) / h)⟩ := by
            simp [normalize_bounding_box, hv', hw', hh', hx, hy]
          constructor
          · rw [hnorm]
            simp [hv, hw', hh', hx, hy]
          · intro bb hbb
            rw [hnorm] at hbb
            injection hbb with hbbEq
            subst hbbEq
            refine ⟨clamp01_nonneg _, ?_, clamp01_le_one _,
              clamp01_nonneg _, ?_, clamp01_le_one _⟩
            · exact clamp01_mono ((div_le_div_iff_of_pos_right hw).mpr
                ((foldl_min_le_init xr x0).trans (init_le_foldl_max xr x0)))
            · exact clamp01_mono ((div_le_div_iff_of_pos_right hh).mpr
                ((foldl_min_le_init yr y0).trans (init_le_foldl_max yr y0)))

/-- C6 (witness): the contract at concrete inputs — the empty vertex list
fails, and the box normalized from `vertsC6` satisfies all the bounds. -/
theorem normalize_bounding_box_contract_witness :
    normalize_bounding_box [] ((1000 : ℚ), (1000 : ℚ)) =
      .error .invalidGeometry ∧
    (0 ≤ bbC6.x_min ∧ bbC6.x_min ≤ bbC6.x_max ∧ bbC6.x_max ≤ 1 ∧
     0 ≤ bbC6.y_min ∧ bbC6.y_min ≤ bbC6.y_max ∧ bbC6.y_max ≤ 1) :=
  ⟨(normalize_bounding_box_contract [] 1000 1000).1.mpr (Or.inl rfl),
   (normalize_bounding_box_contract vertsC6 1000 1000).2 bbC6
     (by with_unfolding_all decide)⟩

/-- C7: for every region list the header boundary is at most 0.25, the
smart footer boundary is at least 0.75, and the footer boundary computed
inside `filter_item_regions` is at most 0.95. -/
theorem boundary_caps (regions : List TextRegion) :
    detect_header_boundary regions ≤ 25 / 100 ∧
    75 / 100 ≤ detect_footer_boundary regions ∧
    filterFooterBoundary regions ≤ 95 / 100 :=
  ⟨min_le_right _ _, footerScanSmart_ge _,
   filterFooterScan_le _ _ (by norm_num)⟩

/-- C8 (counterexample): with a keyword region at the very bottom
(`y_min = 0.93`) and another keyword region higher up (`y_min = 0.5`),
the footer boundary of `filter_item_regions` is 0.5 — from the higher
region — not `min(0.95, 0.93) = 0.93` from the first (lowest)
keyword-matching region of the bottom-up scan, refuting the claim. -/
theorem filter_footer_first_match_counterexample :
    sortByCenterY [rSubtotalHigh, rTotalLow] = [rSubtotalHigh, rTotalLow] ∧
    filterFooterKeywordMatch rTotalLow.text = true ∧
    filterFooterBoundary [rSubtotalHigh, rTotalLow] = 1 / 2 ∧
    min (95 / 100) rTotalLow.bounding_box.y_min = 93 / 100 ∧
    ((1 : ℚ) / 2 ≠ 93 / 100) := by
  with_unfolding_all decide

/-- C8 (amended): the footer boundary of `filter_item_regions` is
`min(0.95, y_min)` of the first keyword-matching region of the bottom-up
scan of the center-sorted list whose `min(0.95, y_min)` is below 0.9 —
keyword matches below it whose values are at least 0.9 are passed over;
when every keyword match has `min(0.95, y_min) ≥ 0.9`, the scan runs to
the top and the boundary is `min(0.95, y_min)` of the topmost
keyword-matching region; with no keyword match at all the 0.9 default is
used. -/
theorem filter_footer_boundary_spec (regions : List TextRegion) :
    (∀ l1 r l2, sortByCenterY regions = l1 ++ r :: l2 →
      filterFooterKeywordMatch r.text = true →
      min ((95 : ℚ) / 100) r.bounding_box.y_min < 9 / 10 →
      (∀ x ∈ l2, filterFooterKeywordMatch x.text = true →
        ¬ min ((95 : ℚ) / 100) x.bounding_box.y_min < 9 / 10) →
      filterFooterBoundary regions = min (95 / 100) r.bounding_box.y_min) ∧
    (∀ l1 r l2, sortByCenterY regions = l1 ++ r :: l2 →
      filterFooterKeywordMatch r.text = true →
      ¬ min ((95 : ℚ) / 100) r.bounding_box.y_min < 9 / 10 →
      (∀ x ∈ l1, filterFooterKeywordMatch x.text = false) →
      (∀ x ∈ l2, filterFooterKeywordMatch x.text = true →
        ¬ min ((95 : ℚ) / 100) x.bounding_box.y_min < 9 / 10) →
      filterFooterBoundary regions = min (95 / 100) r.bounding_box.y_min) ∧
    ((∀ x ∈ regions, filterFooterKeywordMatch x.text = false) →
      filterFooterBoundary regions = 9 / 10) := by
  refine ⟨?_, ?_, ?_⟩
  · intro l1 r l2 hsplit hmatch hlow hl2
    unfold filterFooterBoundary
    rw [hsplit]
    have hrev : (l1 ++ r :: l2).reverse = l2.reverse ++ r :: l1.reverse := by
      simp [List.reverse_append]
    rw [hrev]
    obtain ⟨fb', hfb', heq⟩ := filterFooterScan_skipHigh l2.reverse
      (r :: l1.reverse) (9 / 10) (by norm_num)
      (fun x hx hmx => hl2 x (List.mem_reverse.mp hx) hmx)
    rw [heq]
    simp only [filterFooterScan]
    rw [if_pos hmatch, if_pos hlow]
  · intro l1 r l2 hsplit hmatch hhigh hl1 hl2
    unfold filterFooterBoundary
    rw [hsplit]
    have hrev : (l1 ++ r :: l2).reverse = l2.reverse ++ r :: l1.reverse := by
      simp [List.reverse_append]
    rw [hrev]
    obtain ⟨fb', hfb', heq⟩ := filterFooterScan_skipHigh l2.reverse
      (r :: l1.reverse) (9 / 10) (by norm_num)
      (fun x hx hmx => hl2 x (List.mem_reverse.mp hx) hmx)
    rw [heq]
    simp only [filterFooterScan]
    rw [if_pos hmatch, if_neg hhigh]
    exact filterFooterScan_noMatch l1.reverse _ hhigh
      (fun x hx => hl1 x (List.mem_reverse.mp hx))
  · intro hall
    unfold filterFooterBoundary
    exact filterFooterScan_noMatch _ _ (by norm_num)
      (fun x hx => hall x
        ((mem_sortByKey _ regions x).mp (List.mem_reverse.mp hx)))

/-- C8 (witness): all three clauses of the amended boundary rule at
concrete lists — a low match above a passed-over high match, a sole high
match keeping its own value, and the match-free default. -/
theorem filter_footer_boundary_spec_witness :
    filterFooterBoundary [rTotalNormal, rTotalLow] =
      min (95 / 100) rTotalNormal.bounding_box.y_min ∧
    filterFooterBoundary [rBurgerMid, rTotalLow] =
      min (95 / 100) rTotalLow.bounding_box.y_min ∧
    filterFooterBoundary [rBurgerMid] = 9 / 10 :=
  ⟨(filter_footer_boundary_spec [rTotalNormal, rTotalLow]).1
      [] rTotalNormal [rTotalLow] (by with_unfolding_all decide)
      (by with_unfolding_all decide) (by with_unfolding_all decide)
      (by with_unfolding_all decide),
   (filter_footer_boundary_spec [rBurgerMid, rTotalLow]).2.1
      [rBurgerMid] rTotalLow [] (by with_unfolding_all decide)
      (by with_unfolding_all decide) (by with_unfolding_all decide)
      (by with_unfolding_all decide) (by with_unfolding_all decide),
   (filter_footer_boundary_spec [rBurgerMid]).2.2
      (by with_unfolding_all decide)⟩

/-- C9: `detect_regions` can return an empty list without raising: on
`respFlat` the flat strategy yields one region, so the `NoRegionsFound`
check (which precedes the filter pass) does not fire, and the filter pass
then removes everything. -/
theorem detect_regions_empty_after_filter :
    detect_regions (some respFlat) = .ok [] ∧
    extract_regions_from_text_annos respFlat.text_annos =
      .ok [regionAb] ∧
    filter_item_regions [regionAb] = [] := by
  with_unfolding_all decide

/-- C10: `get_cached_response` with an empty key returns nothing without
touching the cache, while `cache_ocr_response` rejects an empty key — so
an empty key is never present and its lookup is total. -/
theorem get_cached_response_empty_key (α : Type) (c : CacheState α)
    (now : ℚ) (v : α) (ttl : ℚ) :
    get_cached_response emptyStr now c = (none, c) ∧
    cache_ocr_response emptyStr v ttl now c = .error .emptyKey :=
  ⟨rfl, rfl⟩

end Splitwiser
